import Mathlib

/-!
Shallow embedding of the valve test bench controller (`src/main.py`):
the DCON-style frame codec, the serial transport state, the pressure
reader `read_7019_2`, and the forward-test sequencer `run_forward_test`.

External effects (the serial port, thread scheduling, wx events) are
modelled as explicit environment inputs: each point where Python code can
receive data from, or fail on, the outside world becomes a parameter
(`Option SerialHandle` for `serial.Serial(...)`, `Bool` for a write that
may raise, `Option String` for `readline().decode()`, and per-iteration
functions for the cancellation flag and pressure reads observed by the
test loop).  Python `float` arithmetic is idealised as exact rationals.
-/

namespace ValveBench

/-- A serial port handle as produced by `serial.Serial(...)`; `hid`
distinguishes distinct handles, `is_open` mirrors `ser.is_open`. -/
structure SerialHandle where
  hid : Nat
  is_open : Bool
deriving DecidableEq

/-- State of `DCONController.__init__` (src/main.py lines 12-54): device
addresses, calibration parameters, mutable state variables and timings.
Numeric literals are the exact rationals of the Python source. -/
structure DCONController where
  adrDO : Nat := 1
  adrAO : Nat := 2
  valve1 : Nat := 1
  valve2 : Nat := 4
  valve3 : Nat := 3
  valve4 : Nat := 2
  startPUMP : Nat := 5
  plusPUMP : Nat := 6
  minusPUMP : Nat := 7
  pressureChanel : Nat := 5
  minMA : ℚ := 3.86
  maxMA : ℚ := 19.368
  minP : ℚ := 0
  maxP : ℚ := 6
  pressurePOSLE : ℚ := 0.0
  stop_igra : Bool := false
  plus_counter : Nat := 0
  minus_counter : Nat := 0
  fixed_open : ℚ := 0.0
  fixed_close : ℚ := 0.0
  plus_dim_press : List ℚ := List.replicate 41 0.0
  plus_minus_time : Nat := 100
  plus_step_time : Nat := 1000
  minus_step_time : Nat := 1000
  plus_step : Nat := 80
  minus_step : Nat := 40
  ser : Option SerialHandle := none
deriving DecidableEq

/-- The controller right after `DCONController.__init__` (no port open). -/
def dconInit : DCONController := {}

/-- `self.ser and self.ser.is_open` — the connection-is-open test used by
`send_command` and `read_7019_2`. -/
def serIsOpen (st : DCONController) : Bool :=
  match st.ser with
  | some h => h.is_open
  | none => false

/-- `DCONController.connect` (lines 56-70): always constructs a fresh
`serial.Serial(...)` and stores it in `self.ser`, returning `True`; if the
constructor raises, `self.ser` is left unchanged and `False` is returned.
The environment's answer to `serial.Serial(...)` is the `newSer` argument
(`some h` = port opened as handle `h`, `none` = constructor raised). -/
def connect (newSer : Option SerialHandle) (st : DCONController) :
    Bool × DCONController :=
  match newSer with
  | some h => (true, { st with ser := some h })
  | none => (false, st)

/-- Environment of one `send_command` call: the outcome of a
`serial.Serial(...)` constructor (used only when the port is not open) and
whether `self.ser.write(...)` succeeds. -/
structure SendEnv where
  connectResult : Option SerialHandle
  writeOk : Bool
deriving DecidableEq

/-- `DCONController.send_command` (lines 77-90): if the port is not open,
call `connect` first and return `False` when that fails; then write the
frame (`True` on success, `False` when the write raises). -/
def send_command (_command : String) (env : SendEnv) (st : DCONController) :
    Bool × DCONController :=
  if serIsOpen st then
    (env.writeOk, st)
  else
    match connect env.connectResult st with
    | (true, st1) => (env.writeOk, st1)
    | (false, st1) => (false, st1)

/-- Uppercase hex digit for `n < 16`, as Python `format(..., 'X')` emits. -/
def hexDigit (n : Nat) : Char :=
  if n < 10 then Char.ofNat (48 + n) else Char.ofNat (55 + n)

/-- Digits of `n` in base 16, most significant first, prepended to `acc`.
`fuel` only bounds the recursion depth so the definition is structural
(and hence kernel-reducible); `natToHex` supplies ample fuel. -/
def natToHexAux : Nat → Nat → List Char → List Char
  | 0, n, acc => hexDigit (n % 16) :: acc
  | fuel + 1, n, acc =>
    if n < 16 then hexDigit n :: acc
    else natToHexAux fuel (n / 16) (hexDigit (n % 16) :: acc)

/-- Digits of `n` in base 16, most significant first
(`natToHex 0 = ['0']`, matching Python's `format(0, 'X') = "0"`). -/
def natToHex (n : Nat) : List Char :=
  natToHexAux n n []

/-- Left-pad a digit string with zeros to width `w` (never truncates). -/
def padZeros (w : Nat) (l : List Char) : List Char :=
  List.replicate (w - l.length) '0' ++ l

/-- Python `format(i, '0{w}X')` for an `int`: uppercase hex, zero-padded
to width `w`; a negative number keeps its sign, which counts toward the
width; a number too wide for `w` simply widens the field — no exception is
ever raised. -/
def pyFormatHex (w : Nat) (i : Int) : List Char :=
  if i < 0 then
    '-' :: padZeros (w - 1) (natToHex i.natAbs)
  else
    padZeros w (natToHex i.natAbs)

/-- The frame built by `DCONController.send_705X_XX` (line 94):
`f"{module_id:04X}{address:02X}{channel:02X}{value:02X}\r"`. -/
def frame_705X_XX (module_id address channel value : Int) : String :=
  (pyFormatHex 4 module_id ++ pyFormatHex 2 address ++
    pyFormatHex 2 channel ++ pyFormatHex 2 value ++ ['\r']).asString

/-- `DCONController.send_705X_XX` (lines 92-95): format the frame and send
it through `send_command`. -/
def send_705X_XX (env : SendEnv) (module_id address channel value : Int)
    (st : DCONController) : Bool × DCONController :=
  send_command (frame_705X_XX module_id address channel value) env st

/-- Python whitespace, as recognised by `str.strip()` and `str.split()`. -/
def isPySpace (c : Char) : Bool :=
  c = ' ' || c = '\t' || c = '\n' || c = '\r' || c = '\x0b' || c = '\x0c'

/-- Python `str.strip()`: drop leading and trailing whitespace. -/
def pyStrip (s : String) : String :=
  (((s.toList.dropWhile isPySpace).reverse.dropWhile isPySpace).reverse).asString

/-- Worker for `str.split()`: runs of whitespace separate tokens, empty
tokens are never produced; `acc` holds the current token reversed. -/
def pySplitGo : List Char → List Char → List (List Char)
  | [], acc => if acc.isEmpty then [] else [acc.reverse]
  | c :: cs, acc =>
    if isPySpace c then
      if acc.isEmpty then pySplitGo cs [] else acc.reverse :: pySplitGo cs []
    else
      pySplitGo cs (c :: acc)

/-- Python `str.split()` with no arguments. -/
def pySplit (s : String) : List String :=
  (pySplitGo s.toList []).map List.asString

/-- ASCII decimal digit test. -/
def isDigitCh (c : Char) : Bool :=
  '0' ≤ c && c ≤ '9'

/-- Value of a digit string, most significant first. -/
def digitsVal (l : List Char) : Nat :=
  l.foldl (fun a c => 10 * a + (c.toNat - 48)) 0

/-- Exponent tail of a Python float literal: `(e|E)[+|-]digits`, or
nothing.  Returns `none` on a malformed tail, otherwise the exponent and
it must consume the whole remainder. -/
def pyFloatExp : List Char → Option Int
  | [] => some 0
  | c :: cs =>
    if c = 'e' || c = 'E' then
      match cs with
      | '+' :: ds =>
        if ds ≠ [] ∧ ds.all isDigitCh then some (digitsVal ds) else none
      | '-' :: ds =>
        if ds ≠ [] ∧ ds.all isDigitCh then some (-(digitsVal ds : Int)) else none
      | ds =>
        if ds ≠ [] ∧ ds.all isDigitCh then some (digitsVal ds) else none
    else none

/-- Python `float(token)` idealised over ℚ: optional surrounding
whitespace, optional sign, then `digits [. digits]`, `. digits` or
`digits.`, then an optional exponent; anything else (including the empty
string) raises `ValueError`, modelled as `none`.  The special literals
`inf`/`nan` have no rational value and are outside this model. -/
def pyFloat (s : String) : Option ℚ :=
  let l := (((s.toList.dropWhile isPySpace).reverse.dropWhile isPySpace).reverse)
  let (sign, l1) : ℚ × List Char :=
    match l with
    | '+' :: r => (1, r)
    | '-' :: r => (-1, r)
    | _ => (1, l)
  let intDigits := l1.takeWhile isDigitCh
  let r1 := l1.dropWhile isDigitCh
  let (fracDigits, r2) : List Char × List Char :=
    match r1 with
    | '.' :: r => (r.takeWhile isDigitCh, r.dropWhile isDigitCh)
    | _ => ([], r1)
  if intDigits.isEmpty ∧ fracDigits.isEmpty then none
  else
    match pyFloatExp r2 with
    | none => none
    | some e =>
      let mantissa : ℚ :=
        (digitsVal intDigits : ℚ) + (digitsVal fracDigits : ℚ) / 10 ^ fracDigits.length
      some (sign * mantissa * (10 : ℚ) ^ e)

/-- Round to the nearest integer, ties to even — the rounding Python's
`round` uses. -/
def rndHalfEven (q : ℚ) : ℤ :=
  if q - ⌊q⌋ < 1 / 2 then ⌊q⌋
  else if 1 / 2 < q - ⌊q⌋ then ⌊q⌋ + 1
  else if 2 ∣ ⌊q⌋ then ⌊q⌋ else ⌊q⌋ + 1

/-- Python `round(x, 2)` idealised over ℚ. -/
def pyRound2 (q : ℚ) : ℚ :=
  (rndHalfEven (q * 100) : ℚ) / 100

/-- The normalisation formula of `read_7019_2` (lines 118-119):
`abs(pressure_raw - minMA) * (maxP - minP) / (maxMA - minMA)`. -/
def pressureNorm (minMA maxMA minP maxP raw : ℚ) : ℚ :=
  |raw - minMA| * (maxP - minP) / (maxMA - minMA)

/-- The calibrated pressure `read_7019_2` publishes on a successful parse:
the normalisation formula rounded to 2 decimal places (line 120). -/
def pressureOut (minMA maxMA minP maxP raw : ℚ) : ℚ :=
  pyRound2 (pressureNorm minMA maxMA minP maxP raw)

/-- Environment of one `read_7019_2` call: the outcome of
`serial.Serial(...)` (used only when the port is not open), whether
`self.ser.write(...)` succeeds, and the line `readline().decode()` yields
(`none` when the read or decode raises). -/
structure ReadEnv where
  connectResult : Option SerialHandle
  writeOk : Bool
  readResult : Option String
deriving DecidableEq

/-- The response-handling block of `read_7019_2` (lines 111-123): strip
the line, require it non-empty, split it on whitespace, require a token
at index `pressureChanel`, parse it as a float, normalise and round, and
store the result in `pressurePOSLE`; every failure yields `none` with the
state untouched. -/
def read_response (st1 : DCONController) (line : String) :
    Option ℚ × DCONController :=
  let response := pyStrip line
  if response ≠ "" then
    let values := pySplit response
    if st1.pressureChanel < values.length then
      match pyFloat (values.getD st1.pressureChanel "") with
      | none => (none, st1)
      | some raw =>
        let p := pressureOut st1.minMA st1.maxMA st1.minP st1.maxP raw
        (some p, { st1 with pressurePOSLE := p })
    else (none, st1)
  else (none, st1)

/-- `DCONController.read_7019_2` (lines 97-126): reconnect on demand,
write the read command, read one line via `readline().decode()`, and hand
it to the response-handling block.  Every failure — failed connect,
raising write or read, empty line, too few tokens, unparsable token — is
swallowed and surfaces as `none`, leaving `pressurePOSLE` untouched. -/
def read_7019_2 (env : ReadEnv) (st : DCONController) :
    Option ℚ × DCONController :=
  let goOn : Bool × DCONController :=
    if serIsOpen st then (true, st)
    else connect env.connectResult st
  match goOn with
  | (false, st1) => (none, st1)
  | (true, st1) =>
    if env.writeOk then
      match env.readResult with
      | none => (none, st1)
      | some line => read_response st1 line
    else (none, st1)

/-- How a forward-test run of `MainFrame.run_forward_test` ends:
`ok` — the analysis line succeeded and `fixed_open` was assigned;
`indexError step` — `plus_dim_press[step] = pressure` raised `IndexError`
inside the loop (caught by the blanket `except`);
`valueErrorEmptyMax` — `max(plus_dim_press[:plus_counter])` raised
`ValueError` on an empty slice (caught by the blanket `except`). -/
inductive RunOutcome where
  | ok
  | indexError (step : Nat)
  | valueErrorEmptyMax
deriving DecidableEq

/-- Result of one forward-test run: the sample buffer, the recorded
opening pressure, how the run ended, and the `is_test_running` flag after
the `finally` block. -/
structure ForwardRun where
  buf : List ℚ
  fixed_open : ℚ
  outcome : RunOutcome
  is_test_running : Bool
deriving DecidableEq

/-- The sampling loop of `run_forward_test` (lines 347-365).  `stopAt i`
is the value of the shared `stop_igra` flag the loop observes at the top
of iteration `i`; `readAt i` the result of that iteration's
`read_7019_2`.  `step` is the current index, `remaining` the iterations
left of `range(plus_step)`, `buf` the `plus_dim_press` buffer.  Returns
the final buffer and `some step` if `plus_dim_press[step] = pressure`
raised `IndexError`. -/
def forwardLoop (stopAt : Nat → Bool) (readAt : Nat → Option ℚ) :
    Nat → Nat → List ℚ → List ℚ × Option Nat
  | _, 0, buf => (buf, none)
  | step, remaining + 1, buf =>
    if stopAt step then (buf, none)
    else
      match readAt step with
      | none => forwardLoop stopAt readAt (step + 1) remaining buf
      | some p =>
        if step < buf.length then
          forwardLoop stopAt readAt (step + 1) remaining (buf.set step p)
        else (buf, some step)

/-- `MainFrame.run_forward_test` (lines 328-379): run the sampling loop,
then the analysis `max_pressure = max(plus_dim_press[:plus_counter])`
and `fixed_open = max_pressure`; any exception is caught by the blanket
`except`, and `finally` clears `is_test_running` (and triggers
`on_stop`).  The baseline/pump/valve writes and the sleeps do not touch
the state modelled here. -/
def run_forward_test (stopAt : Nat → Bool) (readAt : Nat → Option ℚ)
    (st : DCONController) : ForwardRun :=
  match forwardLoop stopAt readAt 0 st.plus_step st.plus_dim_press with
  | (buf, some step) =>
    { buf := buf, fixed_open := st.fixed_open,
      outcome := .indexError step, is_test_running := false }
  | (buf, none) =>
    match (buf.take st.plus_counter).max? with
    | none =>
      { buf := buf, fixed_open := st.fixed_open,
        outcome := .valueErrorEmptyMax, is_test_running := false }
    | some m =>
      { buf := buf, fixed_open := m, outcome := .ok, is_test_running := false }

/-! Helper lemmas -/

theorem length_asString (l : List Char) : (l.asString).length = l.length := rfl

theorem padZeros_length (w : Nat) (l : List Char) :
    (padZeros w l).length = max w l.length := by
  simp [padZeros]
  omega

theorem natToHexAux_length :
    ∀ (fuel n : Nat) (acc : List Char) (k : Nat), 0 < k → n < 16 ^ k →
      (natToHexAux fuel n acc).length ≤ k + acc.length := by
  intro fuel
  induction fuel with
  | zero =>
    intro n acc k hk _
    simp only [natToHexAux, List.length_cons]
    omega
  | succ fuel ih =>
    intro n acc k hk hn
    rw [natToHexAux]
    split
    · simp only [List.length_cons]
      omega
    · have hbig : 16 ≤ n := by omega
      have hk2 : 2 ≤ k := by
        by_contra hlt
        have hk1 : k = 1 := by omega
        subst hk1
        simp only [pow_one] at hn
        omega
      have hdiv : n / 16 < 16 ^ (k - 1) := by
        rw [Nat.div_lt_iff_lt_mul (by norm_num)]
        calc n < 16 ^ k := hn
          _ = 16 ^ (k - 1) * 16 := by
            rw [← pow_succ]
            congr 1
            omega
      have := ih (n / 16) (hexDigit (n % 16) :: acc) (k - 1) (by omega) hdiv
      simp only [List.length_cons] at this
      omega

theorem pyFormatHex_length (w : Nat) (i : Int) (hw : 0 < w) (h0 : 0 ≤ i)
    (hi : i.natAbs < 16 ^ w) : (pyFormatHex w i).length = w := by
  unfold pyFormatHex
  rw [if_neg (not_lt.2 h0)]
  have hlen : (natToHex i.natAbs).length ≤ w := by
    simpa [natToHex] using natToHexAux_length i.natAbs i.natAbs [] w hw hi
  rw [padZeros_length, Nat.max_eq_left hlen]

/-! Claim theorems -/

/-- C1 (code_bug): the spec promises a sample buffer of capacity
`stepCount + 1 = 81` and in-bounds stores for every `stepIndex` in
`0 .. 79`, but the code allocates `plus_dim_press = [0.0] * 41` while
looping `plus_step = 80` times: as soon as a pressure sample is obtained
at step 41, the store `plus_dim_press[41]` raises `IndexError` and the
run aborts through the blanket `except`. -/
theorem C1_store_out_of_bounds :
    dconInit.plus_step = 80 ∧ dconInit.plus_dim_press.length = 41 ∧
    ¬ (41 < dconInit.plus_dim_press.length) ∧
    (run_forward_test (fun _ => false) (fun _ => some 1) dconInit).outcome =
      RunOutcome.indexError 41 := by
  refine ⟨rfl, rfl, by decide, ?_⟩
  rfl

unseal Rat.ofScientific in
/-- C2 (code_bug): `plus_counter` is reset to 0 when the test starts and
never incremented anywhere, so the analysis line
`max(plus_dim_press[:plus_counter])` always takes the max of an empty
slice and raises `ValueError`; `fixed_open` is never assigned.  In the
spec's scenario (stepCount 3, reads 1.5 / None / 4.0) the run therefore
ends through the exception path with `fixed_open = 0`, not 4.0. -/
theorem C2_fixed_open_never_assigned :
    dconInit.plus_counter = 0 ∧
    (run_forward_test (fun _ => false)
        (fun i => if i = 0 then some 1.5 else if i = 2 then some 4.0 else none)
        { dconInit with plus_step := 3 }).fixed_open = 0 ∧
    (run_forward_test (fun _ => false)
        (fun i => if i = 0 then some 1.5 else if i = 2 then some 4.0 else none)
        { dconInit with plus_step := 3 }).outcome = RunOutcome.valueErrorEmptyMax := by
  exact ⟨rfl, by decide, rfl⟩

unseal Rat.ofScientific in
/-- C3 (code_bug): when every pressure read of a run fails, the code does
not record a `Failed`/`NoSamplesCollected` outcome — there is no such
status anywhere — and the arithmetic error the spec forbids is exactly
what happens: `max` of the empty slice raises `ValueError`, caught only
by the blanket `except`; `fixed_open` is left at its initial 0. -/
theorem C3_empty_run_raises_value_error :
    (run_forward_test (fun _ => false) (fun _ => none) dconInit).outcome =
      RunOutcome.valueErrorEmptyMax ∧
    (run_forward_test (fun _ => false) (fun _ => none) dconInit).fixed_open = 0 := by
  exact ⟨rfl, by decide⟩

/-- C4 counterexample: the in-range frame `7050 01 05 01` is 11
characters long (4+2+2+2 hex digits plus CR), not 13 as the claim
states. -/
theorem C4_frame_not_13_chars :
    (frame_705X_XX 7050 1 5 1).length ≠ 13 := by
  decide

/-- C4 (corrected): for all in-range inputs (moduleId fitting 4 hex
digits, address/channel/value in 0..255) the frame built by
`send_705X_XX` is exactly 11 characters — 4+2+2+2 zero-padded uppercase
hex digits plus a carriage return.  Out-of-range values are not rejected:
Python's format specifier simply widens the field (value 300 yields a
12-character frame) and no `FrameEncodingError` exists in the code. -/
theorem C4_frame_length_amended (m a c v : Int)
    (hm0 : 0 ≤ m) (hm : m < 65536)
    (ha0 : 0 ≤ a) (ha : a < 256)
    (hc0 : 0 ≤ c) (hc : c < 256)
    (hv0 : 0 ≤ v) (hv : v < 256) :
    (frame_705X_XX m a c v).length = 11 ∧
    (frame_705X_XX 7050 1 5 300).length = 12 := by
  constructor
  · unfold frame_705X_XX
    rw [length_asString]
    simp only [List.length_append, List.length_cons, List.length_nil]
    have h16_4 : (16 : Nat) ^ 4 = 65536 := by norm_num
    have h16_2 : (16 : Nat) ^ 2 = 256 := by norm_num
    rw [pyFormatHex_length 4 m (by norm_num) hm0 (by rw [h16_4]; omega)]
    rw [pyFormatHex_length 2 a (by norm_num) ha0 (by rw [h16_2]; omega)]
    rw [pyFormatHex_length 2 c (by norm_num) hc0 (by rw [h16_2]; omega)]
    rw [pyFormatHex_length 2 v (by norm_num) hv0 (by rw [h16_2]; omega)]
  · decide

/-- A stopped iteration returns the buffer unchanged for any fuel. -/
theorem forwardLoop_stopped (stopAt : Nat → Bool) (readAt : Nat → Option ℚ)
    (s : Nat) (buf : List ℚ) (hs : stopAt s = true) :
    ∀ r, forwardLoop stopAt readAt s r buf = (buf, none) := by
  intro r
  cases r with
  | zero => rfl
  | succ r => simp [forwardLoop, hs]

/-- Once the cancellation flag is observed from iteration `k + 1` onward,
the loop behaves exactly like the loop bounded to `k + 1` iterations. -/
theorem forwardLoop_trunc (stopAt : Nat → Bool) (readAt : Nat → Option ℚ)
    (k : Nat) (hst : ∀ j, k < j → stopAt j = true) :
    ∀ (r s : Nat) (buf : List ℚ),
      forwardLoop stopAt readAt s r buf =
        forwardLoop stopAt readAt s (min r (k + 1 - s)) buf := by
  intro r
  induction r with
  | zero => intro s buf; simp
  | succ r ih =>
    intro s buf
    by_cases hs : stopAt s = true
    · rw [forwardLoop_stopped stopAt readAt s buf hs,
        forwardLoop_stopped stopAt readAt s buf hs]
    · have hsk : s ≤ k := by
        by_contra hgt
        exact hs (hst s (by omega))
      have hmin : min (r + 1) (k + 1 - s) = min r (k - s) + 1 := by omega
      rw [hmin]
      have h2 : k + 1 - (s + 1) = k - s := by omega
      cases hread : readAt s with
      | none =>
        simp only [forwardLoop, hs, Bool.false_eq_true, if_false, hread]
        rw [ih (s + 1) buf, h2]
      | some p =>
        by_cases hlen : s < buf.length
        · simp only [forwardLoop, hs, Bool.false_eq_true, if_false, hread, hlen,
            if_true]
          rw [ih (s + 1) (buf.set s p), h2]
        · simp only [forwardLoop, hs, Bool.false_eq_true, if_false, hread, hlen,
            if_false]

/-- C5: cancellation is checked at the top of every iteration of the
forward-test loop.  If the `stop_igra` flag is observed set from
iteration `k + 1` onward (i.e. cancellation was requested during
iteration `k`), the whole run is indistinguishable from a run bounded to
`k + 1` iterations: iteration `k` completes its work (never stopping
mid-write), the loop exits at the top of iteration `k + 1`, and no sample
slot is touched afterwards. -/
theorem C5_cancel_within_one_iteration (stopAt : Nat → Bool)
    (readAt : Nat → Option ℚ) (st : DCONController) (k : Nat)
    (hst : ∀ j, k < j → stopAt j = true) :
    run_forward_test stopAt readAt st =
      run_forward_test stopAt readAt
        { st with plus_step := min st.plus_step (k + 1) } := by
  unfold run_forward_test
  have h := forwardLoop_trunc stopAt readAt k hst st.plus_step 0 st.plus_dim_press
  simp only [Nat.sub_zero] at h
  rw [h]

/-- C5 witness: cancellation requested during iteration 1 of a default
run — the run equals the run bounded to 2 iterations. -/
theorem C5_cancel_witness :
    (∀ j, 1 < j → (fun i => decide (1 < i)) j = true) ∧
    run_forward_test (fun i => decide (1 < i)) (fun _ => some 1) dconInit =
      run_forward_test (fun i => decide (1 < i)) (fun _ => some 1)
        { dconInit with plus_step := min dconInit.plus_step 2 } := by
  exact ⟨fun j hj => decide_eq_true hj,
    C5_cancel_within_one_iteration (fun i => decide (1 < i)) (fun _ => some 1)
      dconInit 1 (fun j hj => decide_eq_true hj)⟩

/-- C10: `pressurePOSLE` is written only by a fully successful read.  The
state after any `read_7019_2` call carries the returned value when the
read succeeded and the previous `pressurePOSLE` when it returned `None` —
so the display layer always sees the most recent successful read. -/
theorem read_response_pressurePOSLE (st1 : DCONController) (line : String) :
    (read_response st1 line).2.pressurePOSLE =
      ((read_response st1 line).1).getD st1.pressurePOSLE := by
  unfold read_response
  by_cases hresp : pyStrip line = ""
  · simp [hresp]
  · by_cases hlen : st1.pressureChanel < (pySplit (pyStrip line)).length
    · cases hpf : pyFloat ((pySplit (pyStrip line)).getD st1.pressureChanel "") <;>
        rw [List.getD_eq_getElem _ _ hlen] at hpf <;>
        simp [hresp, hlen, hpf]
    · simp [hresp, hlen]

theorem C10_pressurePOSLE_only_on_success (env : ReadEnv) (st : DCONController) :
    (read_7019_2 env st).2.pressurePOSLE =
      ((read_7019_2 env st).1).getD st.pressurePOSLE := by
  by_cases hser : serIsOpen st = true
  · cases hwk : env.writeOk
    · simp [read_7019_2, hser, hwk]
    · cases hrr : env.readResult with
      | none => simp [read_7019_2, hser, hwk, hrr]
      | some line =>
        have h := read_response_pressurePOSLE st line
        simp [read_7019_2, hser, hwk, hrr, h]
  · cases hc : env.connectResult with
    | none => simp [read_7019_2, hser, hc, connect]
    | some hh =>
      cases hwk : env.writeOk
      · simp [read_7019_2, hser, hc, connect, hwk]
      · cases hrr : env.readResult with
        | none => simp [read_7019_2, hser, hc, connect, hwk, hrr]
        | some line =>
          have h := read_response_pressurePOSLE { st with ser := some hh } line
          simp only [read_7019_2, hser, hc, connect] at h ⊢
          simp [hwk, hrr, h]

/-- The response-handling block returns `None` on an empty (stripped)
line, on too few tokens, and on an unparsable token. -/
theorem read_response_fst_none (st1 : DCONController) (line : String)
    (h : pyStrip line = "" ∨
      (pySplit (pyStrip line)).length ≤ st1.pressureChanel ∨
      pyFloat ((pySplit (pyStrip line)).getD st1.pressureChanel "") = none) :
    (read_response st1 line).1 = none := by
  rcases h with hcase | hcase | hcase
  · simp [read_response, hcase]
  · have hlt : ¬ (st1.pressureChanel < (pySplit (pyStrip line)).length) := by omega
    by_cases hresp : pyStrip line = "" <;> simp [read_response, hresp, hlt]
  · by_cases hresp : pyStrip line = ""
    · simp [read_response, hresp]
    · by_cases hlen : st1.pressureChanel < (pySplit (pyStrip line)).length
      · rw [List.getD_eq_getElem _ _ hlen] at hcase
        simp [read_response, hresp, hlen, hcase]
      · simp [read_response, hresp, hlen]

/-- C6: `read_7019_2` returns `None` rather than letting an exception
escape, on every failure mode: raising write, raising read/decode, failed
on-demand connect, empty stripped line, fewer whitespace-separated tokens
than `pressureChanel + 1`, or a non-numeric token at index
`pressureChanel`.  Totality of the embedding models the absence of a
crash. -/
theorem C6_read_soft_fail (env : ReadEnv) (st : DCONController)
    (h : env.writeOk = false ∨ env.readResult = none ∨
      (serIsOpen st = false ∧ env.connectResult = none) ∨
      (∃ line, env.readResult = some line ∧
        (pyStrip line = "" ∨
         (pySplit (pyStrip line)).length ≤ st.pressureChanel ∨
         pyFloat ((pySplit (pyStrip line)).getD st.pressureChanel "") = none))) :
    (read_7019_2 env st).1 = none := by
  rcases h with hw | hr | ⟨hopen, hc⟩ | ⟨line, hl, hcase⟩
  · by_cases hser : serIsOpen st = true
    · simp [read_7019_2, hser, hw]
    · cases hc : env.connectResult with
      | none => simp [read_7019_2, hser, hc, connect]
      | some hh => simp [read_7019_2, hser, hc, connect, hw]
  · by_cases hser : serIsOpen st = true
    · cases hwk : env.writeOk <;> simp [read_7019_2, hser, hwk, hr]
    · cases hc : env.connectResult with
      | none => simp [read_7019_2, hser, hc, connect]
      | some hh => cases hwk : env.writeOk <;>
          simp [read_7019_2, hser, hc, connect, hwk, hr]
  · simp [read_7019_2, hopen, hc, connect]
  · by_cases hser : serIsOpen st = true
    · have hrn := read_response_fst_none st line hcase
      cases hwk : env.writeOk <;> simp [read_7019_2, hser, hwk, hl, hrn]
    · cases hc : env.connectResult with
      | none => simp [read_7019_2, hser, hc, connect]
      | some hh =>
        have hrn := read_response_fst_none { st with ser := some hh } line
          (by simpa using hcase)
        cases hwk : env.writeOk <;>
          simp [read_7019_2, hser, hc, connect, hwk, hl, hrn]

/-- C6 witness: an empty response line on an open connection yields
`None`. -/
theorem C6_read_soft_fail_witness :
    ((⟨none, true, some ""⟩ : ReadEnv).readResult = some "" ∧ pyStrip "" = "") ∧
    (read_7019_2 ⟨none, true, some ""⟩
      { dconInit with ser := some ⟨1, true⟩ }).1 = none :=
  ⟨⟨rfl, rfl⟩,
    C6_read_soft_fail _ _ (Or.inr (Or.inr (Or.inr ⟨"", rfl, Or.inl rfl⟩)))⟩

/-- C7: whenever `read_7019_2` succeeds with raw value `r` parsed at
index `pressureChanel`, the returned pressure is
`|r − minMA| · (maxP − minP) / (maxMA − minMA)` rounded to 2 decimal
places. -/
theorem C7_pressure_formula (env : ReadEnv) (st : DCONController)
    (line : String) (r : ℚ)
    (hser : serIsOpen st = true) (hw : env.writeOk = true)
    (hr : env.readResult = some line)
    (hresp : pyStrip line ≠ "")
    (hlen : st.pressureChanel < (pySplit (pyStrip line)).length)
    (hpf : pyFloat ((pySplit (pyStrip line)).getD st.pressureChanel "") = some r) :
    (read_7019_2 env st).1 =
      some (pyRound2 (|r - st.minMA| * (st.maxP - st.minP) /
        (st.maxMA - st.minMA))) := by
  rw [List.getD_eq_getElem _ _ hlen] at hpf
  simp [read_7019_2, read_response, hser, hw, hr, hresp, hlen, hpf,
    pressureOut, pressureNorm]

unseal Rat.add Rat.sub Rat.mul Rat.inv Rat.ofScientific in
/-- C7 witness: the spec scenario — calibration `3.86 / 19.368 / 0 / 6`
and raw token `11.614` at channel index 5 — returns exactly 3.00. -/
theorem C7_pressure_formula_witness :
    (read_7019_2 ⟨none, true, some "1 2 3 4 5 11.614"⟩
      { dconInit with ser := some ⟨1, true⟩ }).1 = some 3 := by
  have h := C7_pressure_formula ⟨none, true, some "1 2 3 4 5 11.614"⟩
    { dconInit with ser := some ⟨1, true⟩ } "1 2 3 4 5 11.614" (5807 / 500)
    (by decide) rfl rfl (by decide) (by decide) (by decide)
  rw [h]
  decide

/-- C9 counterexample: `connect` is not idempotent.  With the port
already open on handle 1, `connect` does not return the existing
connection: it opens and stores a fresh handle. -/
theorem C9_connect_replaces_handle :
    serIsOpen { dconInit with ser := some ⟨1, true⟩ } = true ∧
    (connect (some ⟨2, true⟩) { dconInit with ser := some ⟨1, true⟩ }).2.ser ≠
      ({ dconInit with ser := some ⟨1, true⟩ } : DCONController).ser := by
  exact ⟨rfl, by decide⟩

/-- C9 (corrected): `connect` itself unconditionally opens a fresh serial
handle, replacing `self.ser`.  The open-is-a-no-op behaviour lives in the
callers: `send_command` and `read_7019_2` call `connect` only when the
connection is absent or closed, so while the port is open they leave the
existing handle unchanged. -/
theorem C9_open_check_in_callers (cmd : String) (env : SendEnv)
    (renv : ReadEnv) (st : DCONController) (hser : serIsOpen st = true) :
    (send_command cmd env st).2 = st ∧ (read_7019_2 renv st).2.ser = st.ser := by
  constructor
  · simp [send_command, hser]
  · cases hwk : renv.writeOk
    · simp [read_7019_2, hser, hwk]
    · cases hrr : renv.readResult with
      | none => simp [read_7019_2, hser, hwk, hrr]
      | some line =>
        have h : (read_response st line).2.ser = st.ser := by
          unfold read_response
          by_cases hresp : pyStrip line = ""
          · simp [hresp]
          · by_cases hlen : st.pressureChanel < (pySplit (pyStrip line)).length
            · cases hpf :
                pyFloat ((pySplit (pyStrip line)).getD st.pressureChanel "") <;>
                rw [List.getD_eq_getElem _ _ hlen] at hpf <;>
                simp [hresp, hlen, hpf]
            · simp [hresp, hlen]
        simp [read_7019_2, hser, hwk, hrr, h]

/-- C9 witness: with handle 1 open, a `send_command` and a `read_7019_2`
both leave the stored handle untouched. -/
theorem C9_open_check_witness :
    serIsOpen { dconInit with ser := some ⟨1, true⟩ } = true ∧
    ((send_command "7050010501\r" ⟨none, true⟩
        { dconInit with ser := some ⟨1, true⟩ }).2 =
      { dconInit with ser := some ⟨1, true⟩ } ∧
     (read_7019_2 ⟨none, true, none⟩
        { dconInit with ser := some ⟨1, true⟩ }).2.ser =
      ({ dconInit with ser := some ⟨1, true⟩ } : DCONController).ser) :=
  ⟨rfl, C9_open_check_in_callers "7050010501\r" ⟨none, true⟩ ⟨none, true, none⟩
    { dconInit with ser := some ⟨1, true⟩ } rfl⟩

/-! Rounding lemmas for C8 -/

theorem rndHalfEven_ge_floor (q : ℚ) : ⌊q⌋ ≤ rndHalfEven q := by
  unfold rndHalfEven
  split_ifs <;> omega

theorem rndHalfEven_le_floor_add_one (q : ℚ) : rndHalfEven q ≤ ⌊q⌋ + 1 := by
  unfold rndHalfEven
  split_ifs <;> omega

theorem rndHalfEven_mono {x y : ℚ} (h : x ≤ y) :
    rndHalfEven x ≤ rndHalfEven y := by
  rcases lt_or_le (⌊x⌋) (⌊y⌋) with hf | hf
  · calc rndHalfEven x ≤ ⌊x⌋ + 1 := rndHalfEven_le_floor_add_one x
      _ ≤ ⌊y⌋ := hf
      _ ≤ rndHalfEven y := rndHalfEven_ge_floor y
  · have hfe : ⌊x⌋ = ⌊y⌋ := le_antisymm (Int.floor_le_floor h) hf
    have hxy : x - (⌊y⌋ : ℚ) ≤ y - (⌊y⌋ : ℚ) := by linarith
    unfold rndHalfEven
    rw [hfe]
    split_ifs <;> first | omega | (exfalso; linarith)

theorem pyRound2_mono {x y : ℚ} (h : x ≤ y) : pyRound2 x ≤ pyRound2 y := by
  unfold pyRound2
  have h1 : rndHalfEven (x * 100) ≤ rndHalfEven (y * 100) :=
    rndHalfEven_mono (by linarith)
  have h2 : ((rndHalfEven (x * 100) : ℚ)) ≤ ((rndHalfEven (y * 100) : ℚ)) := by
    exact_mod_cast h1
  linarith

unseal Rat.add Rat.sub Rat.mul Rat.inv Rat.ofScientific in
/-- C8 counterexample: over all calibrations with `maxMA > minMA` the
claim fails.  With `minMA=4, maxMA=20, minP=1, maxP=6`, the pressure at
`raw = minMA` is 0, not `minPressure = 1`; and with `maxP < minP` the
formula is not monotone non-decreasing in `|raw − minMA|`. -/
theorem C8_formula_counterexample :
    ((4 : ℚ) < 20 ∧ pressureOut 4 20 1 6 4 ≠ 1) ∧
    ((0 : ℚ) < 1 ∧ |(0 : ℚ) - 0| ≤ |(1 : ℚ) - 0| ∧
      ¬ (pressureOut 0 1 1 0 0 ≤ pressureOut 0 1 1 0 1)) := by
  decide

/-- C8 (corrected): with `maxMA > minMA` and additionally `minP ≤ maxP`,
the computed pressure is monotone non-decreasing in `|raw − minMA|`; at
`raw = minMA` it is 0 — which equals `minPressure` only when
`minPressure = 0`, as in the code's configured calibration. -/
theorem C8_monotone_and_zero_at_min (minMA maxMA minP maxP r1 r2 : ℚ)
    (hMA : minMA < maxMA) (hP : minP ≤ maxP)
    (hr : |r1 - minMA| ≤ |r2 - minMA|) :
    pressureOut minMA maxMA minP maxP r1 ≤ pressureOut minMA maxMA minP maxP r2 ∧
    pressureOut minMA maxMA minP maxP minMA = 0 := by
  constructor
  · apply pyRound2_mono
    unfold pressureNorm
    have hc : (0 : ℚ) ≤ maxP - minP := by linarith
    have hd : (0 : ℚ) < maxMA - minMA := by linarith
    exact (div_le_div_iff_of_pos_right hd).mpr (mul_le_mul_of_nonneg_right hr hc)
  · have hz : pressureNorm minMA maxMA minP maxP minMA = 0 := by
      unfold pressureNorm
      simp
    unfold pressureOut
    rw [hz]
    norm_num [pyRound2, rndHalfEven]

unseal Rat.add Rat.sub Rat.mul Rat.inv Rat.ofScientific in
/-- C8 witness: the amended statement at the code's calibration
(3.86 / 19.368 / 0 / 6) with raw values 4 and 5. -/
theorem C8_monotone_witness :
    ((3.86 : ℚ) < 19.368 ∧ (0 : ℚ) ≤ 6 ∧
      |(4 : ℚ) - 3.86| ≤ |(5 : ℚ) - 3.86|) ∧
    (pressureOut 3.86 19.368 0 6 4 ≤ pressureOut 3.86 19.368 0 6 5 ∧
      pressureOut 3.86 19.368 0 6 3.86 = 0) :=
  ⟨⟨by decide, by decide, by decide⟩,
    C8_monotone_and_zero_at_min 3.86 19.368 0 6 4 5
      (by decide) (by decide) (by decide)⟩

/-- C10 witness: a read whose write fails leaves `pressurePOSLE` at its
previous value. -/
theorem C10_pressurePOSLE_witness :
    (read_7019_2 ⟨some ⟨1, true⟩, false, none⟩ dconInit).2.pressurePOSLE =
      ((read_7019_2 ⟨some ⟨1, true⟩, false, none⟩ dconInit).1).getD
        dconInit.pressurePOSLE :=
  C10_pressurePOSLE_only_on_success ⟨some ⟨1, true⟩, false, none⟩ dconInit

/-- C4 witness: the amended statement evaluated at the pump-start frame
`send_705X_XX(7050, 1, 5, 1)`. -/
theorem C4_frame_length_witness :
    ((0 : Int) ≤ 7050 ∧ (7050 : Int) < 65536 ∧ (0 : Int) ≤ 1 ∧ (1 : Int) < 256 ∧
      (0 : Int) ≤ 5 ∧ (5 : Int) < 256) ∧
    (frame_705X_XX 7050 1 5 1).length = 11 ∧
    (frame_705X_XX 7050 1 5 300).length = 12 := by
  exact ⟨by decide,
    C4_frame_length_amended 7050 1 5 1 (by decide) (by decide) (by decide)
      (by decide) (by decide) (by decide) (by decide) (by decide)⟩

end ValveBench
